import Mathlib

/-!
Verification of the booking-slot reservation and waiting-list notification
workflow of the Wanderers squash booking web application.

The Lean definitions below are a shallow embedding of the Python source:

* `app/dbconnection.py` — the booking ledger (`Bookfile` table) with its
  conditional `UPDATE` statements (`update_internet_bookings`,
  `delete_internet_booking`), the tariff retrieval
  (`get_court_rates_per_minute`) and the per-member booking caps
  (`get_booking_limitations`);
* `app/flask_financials_app.py` — the balance adjustment
  (`calculated_internet_bookings`) and the display-only cost table
  (`get_court_booking_costs`);
* `app/flask_bookings_app.py` — the daily/weekly booking-limit checks;
* `app/flask_waitinglist_app.py` — the JSON-file waiting-list store with
  its add/remove/cleanup/notification operations.

Database rows, the JSON store and e-mail sending are modelled as explicit
data (association lists, an oracle for send success); currency amounts are
modelled as exact rationals.
-/

namespace WanderersSquash

/-! ## Booking ledger (`app/dbconnection.py`)

A `Bookfile` row is keyed by its `StartTime1` value (abstracted to a `Nat`
key); for a fixed selected court we track the one `PlayerNo_k` column (the
occupant, `none` = SQL NULL) and its `PlayName_k` column.  -/

/-- Outcome of `update_internet_bookings`. -/
inductive UpdStatus
  | success
  | alreadyBooked
  | error
deriving DecidableEq, Repr

/-- One `Bookfile` row restricted to the columns the conditional updates
touch: the `StartTime1` key, the selected `PlayerNo_k` cell and the
corresponding `PlayName_k` cell. -/
structure BRow where
  start : Nat
  cell : Option Int
  pname : Option String
deriving DecidableEq, Repr

/-- The `WHERE` sentinel disjunction of `update_internet_bookings`:
`[col] IS NULL OR [col] = -9 OR [col] = 0`. -/
def isEmptySentinel : Option Int → Bool
  | none => true
  | some v => v == 0 || v == -9

/-- The member-profile fields used to build the stored player name. -/
structure Profile where
  firstName : String
  surname : String
deriving DecidableEq, Repr

/-- `player_name = f"{member_profile['first_name'][0]} {member_profile['surname']}"`. -/
def playerNameOf (p : Profile) : String :=
  p.firstName.take 1 ++ " " ++ p.surname

/-- Effect of the conditional `UPDATE` of `update_internet_bookings` on one
row: the row is rewritten exactly when its key matches and its occupant is
one of the empty sentinels. -/
def reserveRow (memNo : Int) (nm : String) (startT : Nat) (r : BRow) : BRow :=
  if r.start == startT && isEmptySentinel r.cell then
    { r with cell := some memNo, pname := some nm }
  else r

/-- `update_internet_bookings` (dbconnection.py:1083-1120): fetch the
member profile (error when missing), run the single conditional `UPDATE`
over every row, and report `already_booked` when `cursor.rowcount = 0`. -/
def updateInternetBookings (profile : Option Profile) (memNo : Int) (startT : Nat)
    (rows : List BRow) : List BRow × UpdStatus :=
  match profile with
  | none => (rows, .error)
  | some p =>
    let nm := playerNameOf p
    let newRows := rows.map (reserveRow memNo nm startT)
    let rowcount := (rows.filter (fun r => r.start == startT && isEmptySentinel r.cell)).length
    if 0 < rowcount then (newRows, .success) else (newRows, .alreadyBooked)

/-- Effect of the conditional `UPDATE` of `delete_internet_booking` on one
row: both player columns are set to NULL exactly when the key matches and
the occupant equals the cancelling member. -/
def releaseRow (memNo : Int) (startT : Nat) (r : BRow) : BRow :=
  if r.start == startT && r.cell == some memNo then
    { r with cell := none, pname := none }
  else r

/-- `delete_internet_booking` (dbconnection.py:1123-1151): single
conditional `UPDATE ... WHERE [StartTime1] = ? AND [col] = ?`; returns
`True` iff `cursor.rowcount > 0`. -/
def deleteInternetBooking (memNo : Int) (startT : Nat)
    (rows : List BRow) : List BRow × Bool :=
  let newRows := rows.map (releaseRow memNo startT)
  let rowcount := (rows.filter (fun r => r.start == startT && r.cell == some memNo)).length
  (newRows, decide (0 < rowcount))

/-! ### C1 / C6 helper lemmas -/

theorem reserveRow_eq_ite (memNo : Int) (nm : String) (startT : Nat) (r : BRow) :
    reserveRow memNo nm startT r =
      if r.start = startT ∧ isEmptySentinel r.cell then
        { r with cell := some memNo, pname := some nm }
      else r := by
  unfold reserveRow
  by_cases h : r.start = startT ∧ isEmptySentinel r.cell
  · simp [h.1, h.2]
  · have : ¬(r.start == startT && isEmptySentinel r.cell) = true := by
      simp only [Bool.and_eq_true, beq_iff_eq]
      intro hc
      exact h ⟨hc.1, hc.2⟩
    simp [this, h]

theorem releaseRow_eq_ite (memNo : Int) (startT : Nat) (r : BRow) :
    releaseRow memNo startT r =
      if r.start = startT ∧ r.cell = some memNo then
        { r with cell := none, pname := none }
      else r := by
  unfold releaseRow
  by_cases h : r.start = startT ∧ r.cell = some memNo
  · simp [h.1, h.2]
  · have : ¬(r.start == startT && r.cell == some memNo) = true := by
      simp only [Bool.and_eq_true, beq_iff_eq]
      intro hc
      exact h ⟨hc.1, hc.2⟩
    simp [this, h]

/-- C1: for every reserve attempt on a booking cell, `update_internet_bookings`
writes the member into the cell if and only if the cell's current value is one
of the empty sentinels (NULL, 0, or the restricted marker -9), as a single
conditional update over the ledger; when every matching cell holds any other
value the operation reports already-booked, and in that case the ledger is
left unchanged. -/
theorem reserve_writes_iff_empty_sentinel (p : Profile) (memNo : Int) (startT : Nat)
    (rows : List BRow) :
    ((updateInternetBookings (some p) memNo startT rows).1 =
        rows.map (fun r =>
          if r.start = startT ∧ isEmptySentinel r.cell then
            { r with cell := some memNo, pname := some (playerNameOf p) }
          else r))
    ∧ ((updateInternetBookings (some p) memNo startT rows).2 = .alreadyBooked ↔
        ∀ r ∈ rows, ¬(r.start = startT ∧ isEmptySentinel r.cell))
    ∧ ((updateInternetBookings (some p) memNo startT rows).2 = .alreadyBooked →
        (updateInternetBookings (some p) memNo startT rows).1 = rows) := by
  have hmatch : ∀ r : BRow,
      (r.start == startT && isEmptySentinel r.cell) = true ↔
        (r.start = startT ∧ isEmptySentinel r.cell) := by
    intro r
    simp [Bool.and_eq_true]
  have hcount : ((rows.filter (fun r => r.start == startT && isEmptySentinel r.cell)).length = 0)
      ↔ ∀ r ∈ rows, ¬(r.start = startT ∧ isEmptySentinel r.cell) := by
    rw [List.length_eq_zero, List.filter_eq_nil_iff]
    constructor
    · intro h r hr
      rw [← hmatch r]
      intro hc
      exact h r hr hc
    · intro h r hr hc
      exact h r hr ((hmatch r).mp hc)
  refine ⟨?_, ?_, ?_⟩
  · simp only [updateInternetBookings]
    split
    · exact List.map_congr_left (fun r _ => reserveRow_eq_ite memNo (playerNameOf p) startT r)
    · exact List.map_congr_left (fun r _ => reserveRow_eq_ite memNo (playerNameOf p) startT r)
  · simp only [updateInternetBookings]
    constructor
    · intro h
      rw [← hcount]
      by_contra hne
      have hpos : 0 < (rows.filter (fun r => r.start == startT && isEmptySentinel r.cell)).length :=
        Nat.pos_of_ne_zero hne
      simp [hpos] at h
    · intro h
      have hz := hcount.mpr h
      simp [hz]
  · intro h
    have hall : ∀ r ∈ rows, ¬(r.start = startT ∧ isEmptySentinel r.cell) := by
      revert h
      simp only [updateInternetBookings]
      intro h
      rw [← hcount]
      by_contra hne
      have hpos : 0 < (rows.filter (fun r => r.start == startT && isEmptySentinel r.cell)).length :=
        Nat.pos_of_ne_zero hne
      simp [hpos] at h
    have hid : rows.map (reserveRow memNo (playerNameOf p) startT) = rows := by
      have : rows.map (reserveRow memNo (playerNameOf p) startT) = rows.map id :=
        List.map_congr_left (fun r hr => by
          rw [reserveRow_eq_ite]
          simp [hall r hr])
      rw [this, List.map_id]
    simp only [updateInternetBookings]
    split <;> exact hid

/-- Witness for C1 at a concrete ledger: an empty cell (NULL), a
restricted cell (-9) at another key, and an occupied cell at the target
key of a second row. -/
theorem reserve_writes_iff_empty_sentinel_witness :
    ((updateInternetBookings (some ⟨"Ann", "Smith"⟩) 42 7
        [⟨7, none, none⟩, ⟨7, some 5, some "B Jones"⟩, ⟨9, some (-9), none⟩]).1 =
      [⟨7, some 42, some "A Smith"⟩, ⟨7, some 5, some "B Jones"⟩, ⟨9, some (-9), none⟩])
    ∧ ((updateInternetBookings (some ⟨"Ann", "Smith"⟩) 42 7
        [⟨7, some 5, some "B Jones"⟩]).2 = .alreadyBooked
      ∧ (updateInternetBookings (some ⟨"Ann", "Smith"⟩) 42 7
        [⟨7, some 5, some "B Jones"⟩]).1 = [⟨7, some 5, some "B Jones"⟩]) := by
  have h1 := reserve_writes_iff_empty_sentinel ⟨"Ann", "Smith"⟩ 42 7
    [⟨7, none, none⟩, ⟨7, some 5, some "B Jones"⟩, ⟨9, some (-9), none⟩]
  have h2 := reserve_writes_iff_empty_sentinel ⟨"Ann", "Smith"⟩ 42 7
    [⟨7, some 5, some "B Jones"⟩]
  refine ⟨h1.1.trans (by simp only [playerNameOf]; rfl), ?_, ?_⟩
  · exact h2.2.1.mpr (by decide)
  · exact h2.2.2 (h2.2.1.mpr (by decide))

/-- C6: for every release attempt by member M, `delete_internet_booking`
clears a cell if and only if its key matches and its current occupant
equals M; when no cell matches (occupant differs or no matching row) the
operation reports not-found (`False`) and the ledger is unchanged. -/
theorem release_clears_iff_occupant_matches (memNo : Int) (startT : Nat)
    (rows : List BRow) :
    ((deleteInternetBooking memNo startT rows).1 =
        rows.map (fun r =>
          if r.start = startT ∧ r.cell = some memNo then
            { r with cell := none, pname := none }
          else r))
    ∧ ((deleteInternetBooking memNo startT rows).2 = false ↔
        ∀ r ∈ rows, ¬(r.start = startT ∧ r.cell = some memNo))
    ∧ ((deleteInternetBooking memNo startT rows).2 = false →
        (deleteInternetBooking memNo startT rows).1 = rows) := by
  have hmatch : ∀ r : BRow,
      (r.start == startT && r.cell == some memNo) = true ↔
        (r.start = startT ∧ r.cell = some memNo) := by
    intro r
    simp [Bool.and_eq_true]
  have hcount : ((rows.filter (fun r => r.start == startT && r.cell == some memNo)).length = 0)
      ↔ ∀ r ∈ rows, ¬(r.start = startT ∧ r.cell = some memNo) := by
    rw [List.length_eq_zero, List.filter_eq_nil_iff]
    constructor
    · intro h r hr
      rw [← hmatch r]
      intro hc
      exact h r hr hc
    · intro h r hr hc
      exact h r hr ((hmatch r).mp hc)
  have hflag : (deleteInternetBooking memNo startT rows).2 = false ↔
      ((rows.filter (fun r => r.start == startT && r.cell == some memNo)).length = 0) := by
    simp only [deleteInternetBooking, decide_eq_false_iff_not, Nat.not_lt, Nat.le_zero]
  refine ⟨?_, ?_, ?_⟩
  · exact List.map_congr_left (fun r _ => releaseRow_eq_ite memNo startT r)
  · rw [hflag]
    exact hcount
  · intro h
    have hall := hcount.mp (hflag.mp h)
    have hid : rows.map (releaseRow memNo startT) = rows := by
      have : rows.map (releaseRow memNo startT) = rows.map id :=
        List.map_congr_left (fun r hr => by
          rw [releaseRow_eq_ite]
          simp [hall r hr])
      rw [this, List.map_id]
    exact hid

/-- Witness for C6: member 42 releases their own cell (cleared), and a
release attempt against a cell occupied by member 5 leaves the ledger
unchanged and reports not-found. -/
theorem release_clears_iff_occupant_matches_witness :
    ((deleteInternetBooking 42 7 [⟨7, some 42, some "A Smith"⟩]).1 = [⟨7, none, none⟩])
    ∧ ((deleteInternetBooking 42 7 [⟨7, some 5, some "B Jones"⟩]).2 = false
      ∧ (deleteInternetBooking 42 7 [⟨7, some 5, some "B Jones"⟩]).1 =
          [⟨7, some 5, some "B Jones"⟩]) := by
  have h1 := release_clears_iff_occupant_matches 42 7 [⟨7, some 42, some "A Smith"⟩]
  have h2 := release_clears_iff_occupant_matches 42 7 [⟨7, some 5, some "B Jones"⟩]
  refine ⟨h1.1.trans (by decide), ?_, ?_⟩
  · exact h2.2.1.mpr (by decide)
  · exact h2.2.2 (h2.2.1.mpr (by decide))

/-! ## Tariffs and balance adjustment
(`app/dbconnection.py` `get_court_rates_per_minute`,
`app/flask_financials_app.py` `calculated_internet_bookings` and
`get_court_booking_costs`)

Access-database numerics and the member's credit are modelled as exact
rationals; `S_Credit` survives the `f"{x:.2f}"`/`float` round trip exactly
for two-decimal amounts. -/

/-- Python `round` to the nearest integer: ties go to the even integer. -/
def pyRound (q : ℚ) : ℤ :=
  let f := Rat.floor q
  let frac := q - f
  if frac < 1 / 2 then f
  else if 1 / 2 < frac then f + 1
  else if f % 2 = 0 then f else f + 1

/-- Python `round(q, 4)` as used on the per-minute rates. -/
def round4 (q : ℚ) : ℚ := (pyRound (q * 10000) : ℚ) / 10000

/-- One raw `Courts` row: description plus the five `RATEPMIN`,
`IBOOKING` and `ICANCEL` columns (`none` = NULL). -/
structure CourtRow where
  desc : String
  rates : List (Option ℚ)
  bookings : List (Option ℚ)
  cancellations : List (Option ℚ)
deriving DecidableEq, Repr

/-- The filtered per-court tariff data built by `get_court_rates_per_minute`. -/
structure CostData where
  rates : List ℚ
  bookings : List ℚ
  cancellations : List ℚ
deriving DecidableEq, Repr

/-- The list comprehension `[x for x in xs if x not in (0, None)]`. -/
def validVals (xs : List (Option ℚ)) : List ℚ :=
  xs.filterMap (fun x =>
    match x with
    | none => none
    | some v => if v = 0 then none else some v)

/-- `get_court_rates_per_minute` (dbconnection.py:724-762): skip rows whose
description contains the substring `Court` (the SQL `NOT LIKE '%Court%'`
filter), drop NULL/zero tariff values, round rates to 4 decimals, and keep
a court only when at least one of the three filtered lists is non-empty.
The result preserves row order (Python dict insertion order). -/
def getCourtRatesPerMinute (rows : List CourtRow) : List (String × CostData) :=
  (rows.filter (fun r => !decide ("Court".toList <:+: r.desc.toList))).filterMap (fun r =>
    let vr := (validVals r.rates).map round4
    let vb := validVals r.bookings
    let vc := validVals r.cancellations
    if vr.isEmpty && vb.isEmpty && vc.isEmpty then none
    else some (r.desc, ⟨vr, vb, vc⟩))

/-- The two `cost_type` values accepted by `calculated_internet_bookings`. -/
inductive CostType
  | ibooking
  | icancel
deriving DecidableEq, Repr

/-- `cost_data['bookings']` or `cost_data['cancellations']` depending on
the cost type. -/
def selectCosts (t : CostType) (cd : CostData) : List ℚ :=
  match t with
  | .ibooking => cd.bookings
  | .icancel => cd.cancellations

/-- The cost-selection loop of `calculated_internet_bookings`
(flask_financials_app.py:36-43): with an empty court table the cost stays
`None` (404 branch); otherwise `cost_data.get('bookings', [None])[0]` on
the first court either raises `IndexError` (filtered list empty) or yields
the head of the filtered list and breaks out of the loop. -/
def firstCost (t : CostType) : List (String × CostData) → Except String (Option ℚ)
  | [] => .ok none
  | (_, cd) :: _ =>
    match (selectCosts t cd).head? with
    | some c => .ok (some c)
    | none => .error "IndexError"

/-- `calculated_internet_bookings` (flask_financials_app.py:12-80), POST
path, starting from the member's stored credit: both IBOOKING and ICANCEL
compute `updated_credit = current_credit - cost`, which is then persisted
as the member's new `S_Credit`. Errors model the 404/500 branches, in
which no balance is written. -/
def calculatedInternetBookings (t : CostType) (courtData : List (String × CostData))
    (currentCredit : ℚ) : Except String ℚ :=
  match firstCost t courtData with
  | .error e => .error e
  | .ok none => .error "Cost not found"
  | .ok (some c) => .ok (currentCredit - c)

/-- The booking-then-cancellation flow: `add_booking` persists the credit
returned by the IBOOKING adjustment, and `delete_booking` then runs the
ICANCEL adjustment from that stored credit. -/
def bookThenCancel (courtData : List (String × CostData)) (credit : ℚ) :
    Except String ℚ :=
  (calculatedInternetBookings .ibooking courtData credit).bind
    (calculatedInternetBookings .icancel courtData)

/-- Modelled from the spec (§4.3), for comparison with the source: the
amount the spec says a BOOKING adjustment subtracts — the first non-null
per-minute rate found across courts, multiplied by the fixed 45-minute
slot duration and rounded to the nearest whole currency unit. (In the
source this formula appears only in the display-only
`get_court_booking_costs` endpoint, flask_financials_app.py:113-128.) -/
def specBookingAmount (courtData : List (String × CostData)) : Option ℚ :=
  match courtData with
  | [] => none
  | (_, cd) :: rest =>
    match cd.rates.head? with
    | some r => some ((pyRound (r * 45) : ℤ) : ℚ)
    | none => specBookingAmount rest

/-- Concrete `Courts` table for the C4 counterexample: one court with
per-minute rate 1, internet booking cost 10 and cancellation fee 5. -/
def c4CourtRows : List CourtRow :=
  [⟨"VISIONS", [some 1, none, none, none, none],
    [some 10, none, none, none, none], [some 5, none, none, none, none]⟩]

theorem c4CourtData_eval :
    getCourtRatesPerMinute c4CourtRows = [("VISIONS", ⟨[1], [10], [5]⟩)] := by
  have hinf : ¬("Court".toList <:+: "VISIONS".toList) := by decide
  have hr : validVals [some 1, none, none, none, none] = [1] := by
    simp only [validVals, List.filterMap_cons, List.filterMap_nil]
    norm_num
  have hb : validVals [some 10, none, none, none, none] = [10] := by
    simp only [validVals, List.filterMap_cons, List.filterMap_nil]
    norm_num
  have hc : validVals [some 5, none, none, none, none] = [5] := by
    simp only [validVals, List.filterMap_cons, List.filterMap_nil]
    norm_num
  have h4 : round4 1 = 1 := by norm_num [round4, pyRound, Rat.floor]
  simp only [getCourtRatesPerMinute, c4CourtRows, List.filter_cons, List.filter_nil,
    decide_eq_false hinf, Bool.not_false, if_true, List.filterMap_cons,
    List.filterMap_nil, hr, hb, hc, List.map_cons, List.map_nil, h4,
    List.isEmpty_cons, Bool.false_and, Bool.and_false, Bool.false_eq_true,
    if_false]

/-- C4 counterexample: with one court whose per-minute rate is 1, internet
booking cost 10 and cancellation fee 5, a BOOKING adjustment from balance
100 subtracts 10 (the IBOOKING cost), while the claimed amount — the first
non-null per-minute rate times the 45-minute slot, rounded — is 45; the
resulting balance 90 is not 100 - 45. -/
theorem booking_amount_is_not_rate_times_slot :
    calculatedInternetBookings .ibooking (getCourtRatesPerMinute c4CourtRows) 100 = .ok 90
    ∧ specBookingAmount (getCourtRatesPerMinute c4CourtRows) = some 45
    ∧ ¬((100 : ℚ) - 45 = 90) := by
  rw [c4CourtData_eval]
  refine ⟨?_, ?_, by norm_num⟩
  · simp only [calculatedInternetBookings, firstCost, selectCosts, List.head?]
    norm_num
  · simp only [specBookingAmount, List.head?]
    norm_num [pyRound, Rat.floor]

/-- C4 (amended): for every BOOKING adjustment, the amount subtracted from
the member's balance is the first internet-booking cost (`IBOOKING` value
that is neither NULL nor zero) found by the cost-selection loop — the head
of the first court's filtered booking-cost list — not a per-minute-rate
computation. -/
theorem booking_adjustment_subtracts_first_ibooking_cost
    (desc : String) (cd : CostData) (rest : List (String × CostData))
    (credit c : ℚ) (h : cd.bookings.head? = some c) :
    calculatedInternetBookings .ibooking ((desc, cd) :: rest) credit = .ok (credit - c) := by
  simp only [calculatedInternetBookings, firstCost, selectCosts, h]

/-- Witness for the amended C4 theorem at the counterexample court table:
the first filtered IBOOKING cost is 10 and 100 - 10 = 90 is the new
balance. -/
theorem booking_adjustment_subtracts_first_ibooking_cost_witness :
    calculatedInternetBookings .ibooking [("VISIONS", ⟨[1], [10], [5]⟩)] 100 = .ok 90 := by
  have h := booking_adjustment_subtracts_first_ibooking_cost "VISIONS" ⟨[1], [10], [5]⟩ [] 100 10 rfl
  rw [h]
  norm_num

/-- C8: for every member with starting balance 100 whose court table yields
booking cost 10 and cancellation fee 5, the booking adjustment followed by
the cancellation adjustment subtracts both amounts (the cancellation fee
is a penalty, not a refund), leaving a final balance of 85. -/
theorem financial_round_trip_subtracts_both
    (courtData : List (String × CostData))
    (hb : firstCost .ibooking courtData = .ok (some 10))
    (hc : firstCost .icancel courtData = .ok (some 5)) :
    calculatedInternetBookings .ibooking courtData 100 = .ok 90
    ∧ calculatedInternetBookings .icancel courtData 90 = .ok 85
    ∧ bookThenCancel courtData 100 = .ok 85 := by
  have h1 : calculatedInternetBookings .ibooking courtData 100 = .ok 90 := by
    simp only [calculatedInternetBookings, hb]
    norm_num
  have h2 : calculatedInternetBookings .icancel courtData 90 = .ok 85 := by
    simp only [calculatedInternetBookings, hc]
    norm_num
  exact ⟨h1, h2, by simp only [bookThenCancel, h1, Except.bind, h2]⟩

/-- Witness for C8 at the counterexample court table (rate 1, booking cost
10, cancellation fee 5). -/
theorem financial_round_trip_subtracts_both_witness :
    bookThenCancel [("VISIONS", ⟨[1], [10], [5]⟩)] 100 = .ok 85 := by
  have hb : firstCost .ibooking [(("VISIONS" : String), (⟨[1], [10], [5]⟩ : CostData))] = .ok (some 10) := rfl
  have hc : firstCost .icancel [(("VISIONS" : String), (⟨[1], [10], [5]⟩ : CostData))] = .ok (some 5) := rfl
  exact (financial_round_trip_subtracts_both _ hb hc).2.2

/-! ## Waiting-list store (`app/flask_waitinglist_app.py`)

The JSON file maps date strings to maps from time-slot strings to ordered
entry lists.  Python dicts are modelled as insertion-ordered association
lists with unique keys; date keys are modelled as structured dates (every
key written by the application parses as `dd/MM/yyyy`).  E-mail delivery
is modelled by an oracle `send : WLEntry → Bool` (`true` = the send call
returns, `false` = it raises). -/

/-- A calendar date as compared by Python `datetime.date`. -/
structure WLDate where
  dd : Nat
  mm : Nat
  yyyy : Nat
deriving DecidableEq, Repr

/-- Python `date` comparison `a < b` ((year, month, day) lexicographic). -/
def WLDate.blt (a b : WLDate) : Bool :=
  Nat.blt a.yyyy b.yyyy ||
    (a.yyyy == b.yyyy && (Nat.blt a.mm b.mm || (a.mm == b.mm && Nat.blt a.dd b.dd)))

/-- One waiting-list record `{player_id, first_name, last_name,
email_address, status}`; string fields are `Option` (`none` = key absent
or JSON null). -/
structure WLEntry where
  player_id : Int
  first_name : Option String
  last_name : Option String
  email_address : Option String
  status : String
deriving DecidableEq, Repr

/-- Python truthiness of an optional string (`None` and `""` are falsy). -/
def truthy : Option String → Bool
  | none => false
  | some s => !s.isEmpty

/-- time-slot string → ordered entry list (one date's value). -/
abbrev SlotMap := List (String × List WLEntry)

/-- The persisted waiting-list structure: date → slot map. -/
abbrev WaitingList := List (WLDate × SlotMap)

/-- Python dict assignment `d[k] = v`: replace in place, else append. -/
def setKey {α β : Type} [BEq α] (k : α) (v : β) : List (α × β) → List (α × β)
  | [] => [(k, v)]
  | (k', v') :: rest => if k' == k then (k, v) :: rest else (k', v') :: setKey k v rest

/-- Python dict deletion `del d[k]`. -/
def delKey {α β : Type} [BEq α] (k : α) : List (α × β) → List (α × β)
  | [] => []
  | (k', v') :: rest => if k' == k then rest else (k', v') :: delKey k rest

/-- `cleanup_waiting_list` (flask_waitinglist_app.py:38-67): keep exactly
the date keys that are today or later, and save the result. -/
def cleanupWaitingList (today : WLDate) (wl : WaitingList) : WaitingList :=
  wl.filter (fun e => !WLDate.blt e.1 today)

/-- The per-entry loop of `process_waiting_list_notifications`
(flask_waitinglist_app.py:262-287). Returns the notification attempts
(entry, send-succeeded) in order, and the retained (`updated_entries`)
list: the cancelling member is retained without an attempt, an entry whose
send raises is retained, an entry whose send succeeds is dropped, and an
entry lacking a truthy email/first/last name is silently dropped. -/
def processEntries (send : WLEntry → Bool) (cancelingId : Option Int) :
    List WLEntry → List (WLEntry × Bool) × List WLEntry
  | [] => ([], [])
  | e :: rest =>
    let r := processEntries send cancelingId rest
    if some e.player_id == cancelingId then
      (r.1, e :: r.2)
    else if truthy e.email_address && truthy e.first_name && truthy e.last_name then
      if send e then ((e, true) :: r.1, r.2)
      else ((e, false) :: r.1, e :: r.2)
    else r

/-- `process_waiting_list_notifications` (flask_waitinglist_app.py:241-299).
After the entry loop, the write-back is the source's literal lines 290-292:
`waiting_list` on a line of its own followed by
`[date][time_slot] = updated_entries`, which indexes the fresh list
`[date]` with a string and raises `TypeError` before `save_waiting_list`
runs — so whenever `updated_entries` is non-empty the function raises and
the persisted file keeps its previous content (`Except.error`). Only the
all-entries-dropped branch deletes the time-slot key and saves. -/
def processWaitingListNotifications (send : WLEntry → Bool) (wl : WaitingList)
    (date : WLDate) (timeSlot : String) (cancelingId : Option Int) :
    List (WLEntry × Bool) × Except String WaitingList :=
  let ts := timeSlot.take 5
  match wl.lookup date with
  | none => ([], .ok wl)
  | some slots =>
    match slots.lookup ts with
    | none => ([], .ok wl)
    | some entries =>
      let r := processEntries send cancelingId entries
      if r.2.isEmpty then
        (r.1, .ok (setKey date (delKey ts slots) wl))
      else
        (r.1, .error "TypeError")

/-- The notification step of `delete_booking`
(flask_bookings_app.py:582-588): `process_waiting_list_notifications` is
called WITHOUT the cancelling member's number (the `canceling_player_id`
parameter is left at its default `None`), and any exception is caught and
logged, leaving the previously persisted store in place. Returns the
notification attempts and the persisted store after the step. -/
def deleteBookingNotifyStep (send : WLEntry → Bool) (wl : WaitingList)
    (date : WLDate) (timeSlot : String) : List (WLEntry × Bool) × WaitingList :=
  let r := processWaitingListNotifications send wl date timeSlot none
  (r.1, match r.2 with | .ok wl' => wl' | .error _ => wl)

/-- `remove_from_waiting_list` outcome. -/
inductive RemoveResult
  | removed
  | notFound
deriving DecidableEq, Repr

/-- `remove_from_waiting_list` (flask_waitinglist_app.py:176-223): filter
the player out of the slot's entries; delete the time-slot key when no
entries remain, then delete the date key when it has no slots left; 404
(`notFound`) without a write when the date or slot key is absent. -/
def removeFromWaitingList (playerId : Int) (wl : WaitingList) (date : WLDate)
    (timeSlot : String) : RemoveResult × WaitingList :=
  match wl.lookup date with
  | none => (.notFound, wl)
  | some slots =>
    match slots.lookup timeSlot with
    | none => (.notFound, wl)
    | some entries =>
      let updated := entries.filter (fun e => !(e.player_id == playerId))
      let slots' := if updated.isEmpty then delKey timeSlot slots
                    else setKey timeSlot updated slots
      let wl' := if slots'.isEmpty then delKey date wl else setKey date slots' wl
      (.removed, wl')

/-- `add_to_waiting_list` outcome. -/
inductive AddResult
  | errorMsg (msg : String)
  | alreadyInList
  | added
deriving DecidableEq, Repr

/-- The member fields `get_member_email_and_memnumber` returns for the
logged-in user (`none` = no Clublist row). -/
structure MemberData where
  email : Option String
deriving DecidableEq, Repr

/-- `add_to_waiting_list` (flask_waitinglist_app.py:69-156), for a
logged-in member, returning the outcome and the persisted store after the
request. Validation (missing date/slot, missing member row, missing/blank
email, email without exactly one `@`) raises `ValueError` before any store
access, leaving the persisted file untouched. Then `cleanup_waiting_list`
runs (and saves), the date and slot keys are ensured, a duplicate
`player_id` returns `already_in_list` without a further save, and
otherwise the new entry is appended and saved. The date string is modelled
already normalised to its `dd/MM/yyyy` structured form. -/
def addToWaitingList (today : WLDate) (memberData : Option MemberData)
    (firstName lastName : String) (playerId : Int) (wl : WaitingList)
    (date : Option WLDate) (timeSlot : Option String) : AddResult × WaitingList :=
  match date, timeSlot with
  | none, _ => (.errorMsg "Missing required fields: date or time_slot.", wl)
  | _, none => (.errorMsg "Missing required fields: date or time_slot.", wl)
  | some d, some ts =>
    match memberData with
    | none => (.errorMsg "User information not found.", wl)
    | some md =>
      if !truthy md.email || (md.email.getD "").trim.isEmpty then
        (.errorMsg "Please update email address in My Profile.", wl)
      else if ((md.email.getD "").toList.count '@') ≠ 1 then
        (.errorMsg "Invalid email address format.", wl)
      else
        let cleaned := cleanupWaitingList today wl
        let slots := (cleaned.lookup d).getD []
        let entries := (slots.lookup ts).getD []
        if entries.any (fun e => e.player_id == playerId) then
          (.alreadyInList, cleaned)
        else
          let entry : WLEntry := ⟨playerId, some firstName, some lastName, md.email, "active"⟩
          (.added, setKey d (setKey ts (entries ++ [entry]) slots) cleaned)

/-- The invariant claimed over the persisted structure: no time-slot key
maps to an empty entry list. -/
def slotInvariant (slots : SlotMap) : Bool :=
  slots.all (fun p => !p.2.isEmpty)

/-- The invariant claimed over the persisted structure: no date key maps
to an empty slot map, and no time-slot key maps to an empty entry list. -/
def wlInvariant (wl : WaitingList) : Bool :=
  wl.all (fun p => !p.2.isEmpty && slotInvariant p.2)

/-- The slot-level part of the invariant alone (date keys may map to empty
slot maps). -/
def wlSlotInvariant (wl : WaitingList) : Bool :=
  wl.all (fun p => slotInvariant p.2)

/-! ### Concrete stores for the waiting-list claims -/

def mDate : WLDate := ⟨18, 12, 2024⟩

/-- Member M (number 42) with a valid stored e-mail address. -/
def entryM : WLEntry := ⟨42, some "Mary", some "Major", some "mary@club.na", "active"⟩

/-- Store holding only M's entry for 18/12/2024, 10:30. -/
def storeM : WaitingList := [(mDate, [("10:30", [entryM])])]

def entryA : WLEntry := ⟨1, some "Al", some "Abbot", some "al@club.na", "active"⟩

def entryB : WLEntry := ⟨2, some "Bo", some "Brown", some "bo@club.na", "active"⟩

/-- Store with waiting entries A then B for 18/12/2024, 10:30. -/
def storeAB : WaitingList := [(mDate, [("10:30", [entryA, entryB])])]

/-- Send oracle under which only member 2's (B's) e-mail send succeeds. -/
def sendBOnly : WLEntry → Bool := fun e => e.player_id == 2

/-! ### Association-list helper lemmas -/

theorem all_setKey {α β : Type} [BEq α] (p : α × β → Bool) (k : α) (v : β)
    (l : List (α × β)) (hl : l.all p = true) (hv : p (k, v) = true) :
    (setKey k v l).all p = true := by
  induction l with
  | nil => simpa [setKey] using hv
  | cons hd tl ih =>
    obtain ⟨k', v'⟩ := hd
    simp only [List.all_cons, Bool.and_eq_true] at hl
    simp only [setKey]
    by_cases h : (k' == k) = true
    · simp [h, hv, hl.2]
    · simp [h, hl.1, ih hl.2]

theorem all_delKey {α β : Type} [BEq α] (p : α × β → Bool) (k : α)
    (l : List (α × β)) (hl : l.all p = true) :
    (delKey k l).all p = true := by
  induction l with
  | nil => simp [delKey]
  | cons hd tl ih =>
    obtain ⟨k', v'⟩ := hd
    simp only [List.all_cons, Bool.and_eq_true] at hl
    simp only [delKey]
    by_cases h : (k' == k) = true
    · simp [h, hl.2]
    · simp [h, hl.1, ih hl.2]

theorem all_filter_of_all {α : Type} (p q : α → Bool) (l : List α)
    (hl : l.all p = true) : (l.filter q).all p = true := by
  induction l with
  | nil => rfl
  | cons hd tl ih =>
    simp only [List.all_cons, Bool.and_eq_true] at hl
    rw [List.filter_cons]
    by_cases h : q hd = true
    · simp [h, hl.1, ih hl.2]
    · simp [h, ih hl.2]

theorem all_of_lookup {α β : Type} [BEq α] [LawfulBEq α] (p : α × β → Bool) (k : α)
    (v : β) (l : List (α × β)) (hl : l.all p = true) (h : l.lookup k = some v) :
    p (k, v) = true := by
  induction l with
  | nil => simp [List.lookup] at h
  | cons hd tl ih =>
    obtain ⟨k', v'⟩ := hd
    simp only [List.all_cons, Bool.and_eq_true] at hl
    by_cases hk : (k == k') = true
    · have hkk : k = k' := eq_of_beq hk
      simp only [List.lookup, hk] at h
      obtain rfl : v' = v := by injection h
      subst hkk
      exact hl.1
    · simp only [List.lookup, Bool.not_eq_true] at h
      rw [Bool.not_eq_true] at hk
      rw [hk] at h
      exact ih hl.2 h

theorem setKey_isEmpty_false {α β : Type} [BEq α] (k : α) (v : β)
    (l : List (α × β)) : (setKey k v l).isEmpty = false := by
  cases l with
  | nil => rfl
  | cons hd tl =>
    obtain ⟨k', v'⟩ := hd
    simp only [setKey]
    by_cases h : (k' == k) = true <;> simp [h]

theorem wlSlotInvariant_of_wlInvariant (wl : WaitingList)
    (h : wlInvariant wl = true) : wlSlotInvariant wl = true := by
  simp only [wlInvariant, List.all_eq_true, Bool.and_eq_true] at h
  simp only [wlSlotInvariant, List.all_eq_true]
  exact fun x hx => (h x hx).2

/-- The saved structure of `add_to_waiting_list`'s append path keeps the
invariant: the new entry list is non-empty and both dict assignments
replace-or-append whole non-empty values. -/
theorem add_insert_invariant (d : WLDate) (ts : String) (cleaned : WaitingList)
    (e : WLEntry) (hc : wlInvariant cleaned = true) :
    wlInvariant (setKey d
      (setKey ts ((((cleaned.lookup d).getD []).lookup ts).getD [] ++ [e])
        ((cleaned.lookup d).getD [])) cleaned) = true := by
  have hslots : slotInvariant ((cleaned.lookup d).getD []) = true := by
    cases hl : cleaned.lookup d with
    | none => rfl
    | some s =>
      have hp := all_of_lookup _ d s cleaned hc hl
      simp only [Bool.and_eq_true] at hp
      simpa using hp.2
  apply all_setKey _ _ _ _ hc
  rw [Bool.and_eq_true]
  constructor
  · rw [Bool.not_eq_true', setKey_isEmpty_false]
  · apply all_setKey _ _ _ _ hslots
    simp

/-- C2, evaluated at the failing input: member 42 cancels their own booking
at 18/12/2024 10:30 while being the sole waiting-list entry for that slot,
and every e-mail send succeeds. Because `delete_booking` invokes the
notification step without the cancelling member's number, member 42 IS
sent an e-mail (attempt recorded with success) and member 42's entry is
gone from the persisted store afterwards — contradicting the claim on both
counts. -/
theorem self_cancel_notifies_and_drops_canceller :
    (deleteBookingNotifyStep (fun _ => true) storeM mDate "10:30").1 = [(entryM, true)]
    ∧ (deleteBookingNotifyStep (fun _ => true) storeM mDate "10:30").2 = [(mDate, [])] := by
  constructor <;> rfl

/-- C3, evaluated at the failing input: waiting entries A then B, A's send
raises and B's succeeds. The entry loop retains A, so `updated_entries` is
non-empty and the broken write-back (flask_waitinglist_app.py:290-292)
raises `TypeError` before `save_waiting_list`; the persisted store still
contains BOTH A and B, although the claim (and the code's own comments)
say A stays and B is removed. -/
theorem failed_send_retains_but_nothing_is_saved :
    processWaitingListNotifications sendBOnly storeAB mDate "10:30" none =
      ([(entryA, false), (entryB, true)], .error "TypeError")
    ∧ (deleteBookingNotifyStep sendBOnly storeAB mDate "10:30").2 = storeAB := by
  constructor <;> rfl

/-- C10 counterexample: the invariant holds of the store with the single
entry M; a notification run in which M's send succeeds empties the slot,
deletes the time-slot key, and persists — but the emptied DATE key is not
deleted, so the persisted result `[(mDate, [])]` violates the invariant. -/
theorem notification_keeps_empty_date_key :
    wlInvariant storeM = true
    ∧ (processWaitingListNotifications (fun _ => true) storeM mDate "10:30" none).2 =
        .ok [(mDate, [])]
    ∧ wlInvariant [(mDate, [])] = false := by
  refine ⟨rfl, rfl, rfl⟩

/-- C10 (amended): add, remove and cleanup preserve the full invariant
(no date key maps to an empty slot map and no time-slot key maps to an
empty entry list); notification processing preserves only its slot-level
half — every entry list it persists is non-empty — but when it empties a
time slot it deletes only the time-slot key, so the date key may be left
mapping to an empty slot map (as the counterexample shows). -/
theorem waiting_list_mutations_preserve_invariants
    (today : WLDate) (md : Option MemberData) (fn ln : String) (pid : Int)
    (wl : WaitingList) (od : Option WLDate) (ots : Option String)
    (d : WLDate) (ts : String) (send : WLEntry → Bool) (cid : Option Int)
    (hw : wlInvariant wl = true) :
    wlInvariant (cleanupWaitingList today wl) = true
    ∧ wlInvariant (addToWaitingList today md fn ln pid wl od ots).2 = true
    ∧ wlInvariant (removeFromWaitingList pid wl d ts).2 = true
    ∧ ∀ wl', (processWaitingListNotifications send wl d ts cid).2 = .ok wl' →
        wlSlotInvariant wl' = true := by
  have hclean : wlInvariant (cleanupWaitingList today wl) = true :=
    all_filter_of_all _ _ _ hw
  refine ⟨hclean, ?_, ?_, ?_⟩
  · -- add_to_waiting_list
    cases od with
    | none => cases ots <;> exact hw
    | some dd =>
      cases ots with
      | none => exact hw
      | some tss =>
        cases md with
        | none => exact hw
        | some m =>
          simp only [addToWaitingList]
          by_cases h1 : (!truthy m.email || (m.email.getD "").trim.isEmpty) = true
          · rw [if_pos h1]
            exact hw
          · rw [if_neg h1]
            by_cases h2 : ((m.email.getD "").toList.count '@') ≠ 1
            · rw [if_pos h2]
              exact hw
            · rw [if_neg h2]
              by_cases h3 : ((((((cleanupWaitingList today wl).lookup dd).getD
                    []).lookup tss).getD []).any fun e => e.player_id == pid) = true
              · rw [if_pos h3]
                exact hclean
              · rw [if_neg h3]
                exact add_insert_invariant dd tss (cleanupWaitingList today wl) _ hclean
  · -- remove_from_waiting_list
    cases hl : wl.lookup d with
    | none =>
      simp only [removeFromWaitingList, hl]
      exact hw
    | some slots =>
      cases hl2 : slots.lookup ts with
      | none =>
        simp only [removeFromWaitingList, hl, hl2]
        exact hw
      | some entries =>
        have hp := all_of_lookup _ d slots wl hw hl
        simp only [Bool.and_eq_true] at hp
        have hslot : slotInvariant slots = true := hp.2
        simp only [removeFromWaitingList, hl, hl2]
        by_cases hui : ((entries.filter fun e => !(e.player_id == pid)).isEmpty) = true
        · rw [if_pos hui]
          by_cases hse : ((delKey ts slots).isEmpty) = true
          · rw [if_pos hse]
            exact all_delKey _ _ _ hw
          · rw [if_neg hse]
            apply all_setKey _ _ _ _ hw
            rw [Bool.and_eq_true]
            refine ⟨?_, all_delKey _ _ _ hslot⟩
            rw [Bool.not_eq_true']
            exact Bool.eq_false_iff.mpr hse
        · rw [if_neg hui]
          have hset : slotInvariant
              (setKey ts (entries.filter fun e => !(e.player_id == pid)) slots) = true := by
            apply all_setKey _ _ _ _ hslot
            rw [Bool.not_eq_true']
            exact Bool.eq_false_iff.mpr hui
          by_cases hse : ((setKey ts (entries.filter fun e => !(e.player_id == pid))
              slots).isEmpty) = true
          · rw [setKey_isEmpty_false] at hse
            exact absurd hse (by simp)
          · rw [if_neg hse]
            apply all_setKey _ _ _ _ hw
            rw [Bool.and_eq_true]
            exact ⟨by rw [Bool.not_eq_true', setKey_isEmpty_false], hset⟩
  · -- process_waiting_list_notifications
    intro wl' hok
    cases hl : wl.lookup d with
    | none =>
      simp only [processWaitingListNotifications, hl, Except.ok.injEq] at hok
      subst hok
      exact wlSlotInvariant_of_wlInvariant wl hw
    | some slots =>
      cases hl2 : slots.lookup (ts.take 5) with
      | none =>
        simp only [processWaitingListNotifications, hl, hl2, Except.ok.injEq] at hok
        subst hok
        exact wlSlotInvariant_of_wlInvariant wl hw
      | some entries =>
        simp only [processWaitingListNotifications, hl, hl2] at hok
        by_cases hke : ((processEntries send cid entries).2.isEmpty) = true
        · rw [if_pos hke] at hok
          simp only [Except.ok.injEq] at hok
          subst hok
          have hp := all_of_lookup _ d slots wl hw hl
          simp only [Bool.and_eq_true] at hp
          apply all_setKey _ _ _ _ (wlSlotInvariant_of_wlInvariant wl hw)
          exact all_delKey _ _ _ hp.2
        · rw [if_neg hke] at hok
          exact absurd hok (by simp)

/-- Witness for the amended C10 theorem at the store holding only M's
entry: cleanup keeps the invariant, and a notification run that empties
the slot still satisfies the slot-level half. -/
theorem waiting_list_mutations_preserve_invariants_witness :
    wlInvariant storeM = true
    ∧ wlInvariant (cleanupWaitingList mDate storeM) = true
    ∧ wlInvariant (removeFromWaitingList 42 storeM mDate "10:30").2 = true
    ∧ wlSlotInvariant [(mDate, [])] = true := by
  have h := waiting_list_mutations_preserve_invariants mDate none "F" "L" 42 storeM
    none none mDate "10:30" (fun _ => true) none rfl
  exact ⟨rfl, h.1, h.2.2.1, h.2.2.2 [(mDate, [])] rfl⟩

/-- C9: for every add-to-waiting-list request by a member whose stored
e-mail address is missing (`None`), empty after trimming, or without
exactly one `@`, the request is rejected with a 400 error and the
persisted waiting-list store is unchanged (the validation precedes the
cleanup-and-save). -/
theorem add_rejects_invalid_email (today : WLDate) (fn ln : String) (pid : Int)
    (wl : WaitingList) (d : WLDate) (ts : String) (em : Option String)
    (h : em = none ∨ (em.getD "").trim = "" ∨ ((em.getD "").toList.count '@') ≠ 1) :
    ∃ msg, addToWaitingList today (some ⟨em⟩) fn ln pid wl (some d) (some ts) =
      (.errorMsg msg, wl) := by
  by_cases h1 : (!truthy em || (em.getD "").trim.isEmpty) = true
  · exact ⟨"Please update email address in My Profile.", by
      simp only [addToWaitingList, h1, if_true]⟩
  · have h2 : ((em.getD "").toList.count '@') ≠ 1 := by
      rcases h with h | h | h
      · exfalso
        apply h1
        subst h
        rfl
      · exfalso
        apply h1
        simp [h, String.isEmpty_iff]
      · exact h
    exact ⟨"Invalid email address format.", by
      simp only [addToWaitingList, h1, if_false, Bool.false_eq_true]
      rw [if_pos h2]⟩

/-- Witness for C9: member 7 with stored e-mail `"ab"` (no `@`) asking to
join the 18/12/2024 10:30 waiting list is rejected and the store is
untouched. -/
theorem add_rejects_invalid_email_witness :
    ((some "ab" : Option String) = none ∨ (((some "ab" : Option String)).getD "").trim = ""
      ∨ ((((some "ab" : Option String)).getD "").toList.count '@') ≠ 1)
    ∧ ∃ msg, addToWaitingList mDate (some ⟨some "ab"⟩) "F" "L" 7 storeM
        (some mDate) (some "10:30") = (.errorMsg msg, storeM) := by
  refine ⟨Or.inr (Or.inr (by decide)), ?_⟩
  exact add_rejects_invalid_email mDate "F" "L" 7 storeM mDate "10:30" (some "ab")
    (Or.inr (Or.inr (by decide)))

/-! ## Booking-limit checks (`app/flask_bookings_app.py`
`check_daily_booking_limits` / `check_weekly_booking_limits`, and
`app/dbconnection.py` `get_booking_limitations`)

Date/time strings (`dd/MM/yyyy`, `HH:MM`) are modelled as structured
values compared the way Python `datetime` compares them; an unparsable
`StartTime` is `none` (the `ValueError` branch skips the row). -/

/-- A clock time `HH:MM`. -/
structure ClockTime where
  hh : Nat
  mi : Nat
deriving DecidableEq, Repr

/-- Python `time` comparison `a < b`. -/
def ClockTime.blt (a b : ClockTime) : Bool :=
  Nat.blt a.hh b.hh || (a.hh == b.hh && Nat.blt a.mi b.mi)

/-- A full datetime, compared lexicographically as Python `datetime`. -/
structure PyDateTime where
  date : WLDate
  time : ClockTime
deriving DecidableEq, Repr

/-- Python `datetime` comparison `a < b`. -/
def PyDateTime.blt (a b : PyDateTime) : Bool :=
  WLDate.blt a.date b.date || (a.date == b.date && ClockTime.blt a.time b.time)

/-- One `Clublist` row's cap columns `Book_1..Book_5` / `Week_1..Week_5`
(`none` = NULL). -/
structure ClubRow where
  daily : List (Option Int)
  weekly : List (Option Int)
deriving DecidableEq, Repr

/-- The comprehension of `get_booking_limitations`
(dbconnection.py:861-868): keep a cap iff it is truthy and `> 0` —
equivalently, iff it is a positive number. -/
def validLimits (xs : List (Option Int)) : List Int :=
  xs.filterMap (fun x =>
    match x with
    | none => none
    | some v => if 0 < v then some v else none)

/-- `get_booking_limitations` (dbconnection.py:838-878) for a found row:
the zero/NULL-filtered daily and weekly cap lists. -/
def getBookingLimitations (row : ClubRow) : List Int × List Int :=
  (validLimits row.daily, validLimits row.weekly)

/-- One consolidated row of `get_booked_players_memno`: the `Date` column,
the parsed `StartTime` (`none` = unparsable string), and the `PlayerNos`
cells (`none` = the string `"None"`). -/
structure BookingRow where
  date : WLDate
  start : Option PyDateTime
  playerNos : List (Option Int)
deriving DecidableEq, Repr

/-- One entry of `get_period_ids_by_date_range`: date, `HH:MM` time, and
the non-NULL, non-zero `BookCode` period ids in column order. -/
structure PeriodEntry where
  date : WLDate
  time : ClockTime
  periods : List Int
deriving DecidableEq, Repr

/-- One `Periods` row as returned by `get_periods`. -/
structure PeriodT where
  id : Int
  descr : String
deriving DecidableEq, Repr

/-- One element of `aligned_daily_limits` / `aligned_weekly_limits`. -/
structure AlignedLimit where
  limit : Int
  period_id : Int
  count : Nat
deriving DecidableEq, Repr

/-- `zip(daily_limits, periods)` (flask_bookings_app.py:181-189): caps are
paired with periods positionally, with zero counts. -/
def alignLimits (limits : List Int) (periods : List PeriodT) : List AlignedLimit :=
  (limits.zip periods).map (fun p => ⟨p.1, p.2.id, 0⟩)

/-- The inner `for limit in aligned: if limit["period_id"] == period_id:
count += 1; break` — increment the first aligned entry with the given
period id. -/
def incrFirst (pid : Int) : List AlignedLimit → List AlignedLimit
  | [] => []
  | a :: rest =>
    if a.period_id == pid then { a with count := a.count + 1 } :: rest
    else a :: incrFirst pid rest

/-- The `for idx, period_id in enumerate(period_entry["periods"])` loop:
a court position contributes when it exists in `PlayerNos`, is not the
string `"None"`, and equals the target member. -/
def countRowPeriods (memNo : Int) (playerNos : List (Option Int)) :
    List Int → Nat → List AlignedLimit → List AlignedLimit
  | [], _, acc => acc
  | pid :: rest, idx, acc =>
    let acc' :=
      match playerNos[idx]? with
      | some (some p) => if p == memNo then incrFirst pid acc else acc
      | _ => acc
    countRowPeriods memNo playerNos rest (idx + 1) acc'

/-- The `for period_entry in period_data` loop: every period entry whose
date and time match the row contributes (there is no break). -/
def processRowPeriodData (memNo : Int) (b : BookingRow) (t : ClockTime)
    (periodData : List PeriodEntry) (acc : List AlignedLimit) : List AlignedLimit :=
  periodData.foldl (fun acc pe =>
    if pe.date == b.date && pe.time == t then
      countRowPeriods memNo b.playerNos pe.periods 0 acc
    else acc) acc

/-- One iteration of the daily counting loop
(flask_bookings_app.py:195-226): a row with an unparsable start time is
skipped; a row is skipped when its start datetime is before now AND the
queried date equals today's date; otherwise it is counted. -/
def dailyRowStep (memNo : Int) (queryDate : WLDate) (now : PyDateTime)
    (periodData : List PeriodEntry) (acc : List AlignedLimit) (b : BookingRow) :
    List AlignedLimit :=
  match b.start with
  | none => acc
  | some dt =>
    if PyDateTime.blt dt now && queryDate == now.date then acc
    else processRowPeriodData memNo b dt.time periodData acc

/-- One iteration of the weekly counting loop
(flask_bookings_app.py:331-352): identical to the daily one except that
there is no elapsed-time skip — `now` plays no role. -/
def weeklyRowStep (memNo : Int) (periodData : List PeriodEntry)
    (acc : List AlignedLimit) (b : BookingRow) : List AlignedLimit :=
  match b.start with
  | none => acc
  | some dt => processRowPeriodData memNo b dt.time periodData acc

/-- The per-period counters after the daily counting loop. -/
def dailyCounts (memNo : Int) (queryDate : WLDate) (now : PyDateTime)
    (dailyLimits : List Int) (periods : List PeriodT)
    (periodData : List PeriodEntry) (bookings : List BookingRow) : List AlignedLimit :=
  bookings.foldl (dailyRowStep memNo queryDate now periodData)
    (alignLimits dailyLimits periods)

/-- The per-period counters after the weekly counting loop. -/
def weeklyCounts (memNo : Int) (weeklyLimits : List Int) (periods : List PeriodT)
    (periodData : List PeriodEntry) (bookings : List BookingRow) : List AlignedLimit :=
  bookings.foldl (weeklyRowStep memNo periodData) (alignLimits weeklyLimits periods)

/-- `exceeded_periods` is non-empty: some counter strictly exceeds its cap. -/
def limitExceeded (aligned : List AlignedLimit) : Bool :=
  aligned.any (fun a => decide (a.limit < (a.count : Int)))

/-- `check_daily_booking_limits` verdict: `true` = the 403 "Daily booking
limit exceeded" response, `false` = the 200 success response (including
the early exit for an empty bookings set). -/
def checkDailyBookingLimits (memNo : Int) (queryDate : WLDate) (now : PyDateTime)
    (dailyLimits : List Int) (periods : List PeriodT)
    (periodData : List PeriodEntry) (bookings : List BookingRow) : Bool :=
  if bookings.isEmpty then false
  else limitExceeded (dailyCounts memNo queryDate now dailyLimits periods periodData bookings)

/-- `check_weekly_booking_limits` verdict, analogously. -/
def checkWeeklyBookingLimits (memNo : Int) (weeklyLimits : List Int)
    (periods : List PeriodT) (periodData : List PeriodEntry)
    (bookings : List BookingRow) : Bool :=
  if bookings.isEmpty then false
  else limitExceeded (weeklyCounts memNo weeklyLimits periods periodData bookings)

/-- C7: for a booked row in the daily check's queried range (its date is
the checked date), if that date is today and the row's start time has
already passed, the daily counting loop skips the row (it contributes
nothing to any counter), while the weekly counting loop processes the very
same row like any other in-range row, elapsed or not. -/
theorem daily_excludes_elapsed_weekly_counts_all
    (memNo : Int) (now : PyDateTime) (periodData : List PeriodEntry)
    (acc : List AlignedLimit) (b : BookingRow) (t : ClockTime)
    (hs : b.start = some ⟨b.date, t⟩)
    (htoday : b.date = now.date)
    (hlt : ClockTime.blt t now.time = true) :
    dailyRowStep memNo b.date now periodData acc b = acc
    ∧ weeklyRowStep memNo periodData acc b =
        processRowPeriodData memNo b t periodData acc := by
  constructor
  · have hblt : PyDateTime.blt ⟨b.date, t⟩ now = true := by
      simp only [PyDateTime.blt, htoday, Bool.or_eq_true, Bool.and_eq_true, beq_self_eq_true]
      exact Or.inr ⟨trivial, hlt⟩
    have hq : (b.date == now.date) = true := by
      rw [htoday]
      exact beq_self_eq_true now.date
    simp only [dailyRowStep, hs, hblt, hq, Bool.and_self, if_true]
  · simp only [weeklyRowStep, hs]

/-- Witness for C7: a 10:30 row on the checked date 18/12/2024, with "now"
being 11:00 on that same date; the daily loop drops it, the weekly loop
counts it. -/
theorem daily_excludes_elapsed_weekly_counts_all_witness :
    dailyRowStep 42 (⟨18, 12, 2024⟩ : WLDate) ⟨⟨18, 12, 2024⟩, ⟨11, 0⟩⟩
        [⟨⟨18, 12, 2024⟩, ⟨10, 30⟩, [1]⟩]
        (alignLimits [2] [⟨1, "NORMAL"⟩])
        ⟨⟨18, 12, 2024⟩, some ⟨⟨18, 12, 2024⟩, ⟨10, 30⟩⟩, [some 42]⟩ =
      alignLimits [2] [⟨1, "NORMAL"⟩]
    ∧ weeklyRowStep 42 [⟨⟨18, 12, 2024⟩, ⟨10, 30⟩, [1]⟩]
        (alignLimits [2] [⟨1, "NORMAL"⟩])
        ⟨⟨18, 12, 2024⟩, some ⟨⟨18, 12, 2024⟩, ⟨10, 30⟩⟩, [some 42]⟩ =
      [⟨2, 1, 1⟩] := by
  have h := daily_excludes_elapsed_weekly_counts_all 42 ⟨⟨18, 12, 2024⟩, ⟨11, 0⟩⟩
    [⟨⟨18, 12, 2024⟩, ⟨10, 30⟩, [1]⟩] (alignLimits [2] [⟨1, "NORMAL"⟩])
    ⟨⟨18, 12, 2024⟩, some ⟨⟨18, 12, 2024⟩, ⟨10, 30⟩⟩, [some 42]⟩ ⟨10, 30⟩
    rfl rfl (by decide)
  exact ⟨h.1, h.2.trans (by decide)⟩

/-! ### C5 scenario: daily cap 2 for the first period, second period
uncapped -/

def c5Periods : List PeriodT := [⟨1, "NORMAL"⟩, ⟨2, "OFFPEAK"⟩]

/-- The member's `Clublist` cap row: `Book_1 = 2` (cap 2 for the first
period), `Book_2 = 0` (no cap configured for the second period). -/
def c5ClubRow : ClubRow :=
  ⟨[some 2, some 0, none, none, none], [some 0, none, none, none, none]⟩

/-- The checked date (a future date, so no elapsed-time skip applies). -/
def c5qd : WLDate := ⟨20, 12, 2024⟩

def c5now : PyDateTime := ⟨⟨19, 12, 2024⟩, ⟨9, 0⟩⟩

def tP : ClockTime := ⟨10, 30⟩

def tQ : ClockTime := ⟨11, 15⟩

/-- Period assignment on the checked date: the 10:30 slot is in period 1,
the 11:15 slot in period 2. -/
def c5PeriodData : List PeriodEntry := [⟨c5qd, tP, [1]⟩, ⟨c5qd, tQ, [2]⟩]

/-- A booking of the member in the period-1 slot on the checked date. -/
def rowP (mem : Int) : BookingRow := ⟨c5qd, some ⟨c5qd, tP⟩, [some mem]⟩

/-- A booking of the member in the period-2 (uncapped) slot. -/
def rowQ (mem : Int) : BookingRow := ⟨c5qd, some ⟨c5qd, tQ⟩, [some mem]⟩

theorem c5_stepP (mem : Int) (c : Nat) :
    dailyRowStep mem c5qd c5now c5PeriodData [⟨2, 1, c⟩] (rowP mem) = [⟨2, 1, c + 1⟩] := by
  have hskip : (PyDateTime.blt ⟨c5qd, tP⟩ c5now && (c5qd == c5now.date)) = false := by
    decide
  have e1 : (tQ == tP) = false := by decide
  simp only [dailyRowStep, rowP, hskip, Bool.false_eq_true, if_false,
    processRowPeriodData, c5PeriodData, List.foldl_cons, List.foldl_nil,
    countRowPeriods, List.getElem?_cons_zero, beq_self_eq_true, e1,
    Bool.true_and, Bool.and_false, Bool.and_true, Bool.and_self, if_true,
    incrFirst]

theorem c5_stepQ (mem : Int) (c : Nat) :
    dailyRowStep mem c5qd c5now c5PeriodData [⟨2, 1, c⟩] (rowQ mem) = [⟨2, 1, c⟩] := by
  have hskip : (PyDateTime.blt ⟨c5qd, tQ⟩ c5now && (c5qd == c5now.date)) = false := by
    decide
  have e1 : (tP == tQ) = false := by decide
  have e2 : ((1 : Int) == 2) = false := by decide
  simp only [dailyRowStep, rowQ, hskip, Bool.false_eq_true, if_false,
    processRowPeriodData, c5PeriodData, List.foldl_cons, List.foldl_nil,
    countRowPeriods, List.getElem?_cons_zero, beq_self_eq_true, e1, e2,
    Bool.true_and, Bool.and_false, Bool.and_true, Bool.and_self, if_true,
    incrFirst]

theorem c5_foldQ (mem : Int) (n c : Nat) :
    (List.replicate n (rowQ mem)).foldl (dailyRowStep mem c5qd c5now c5PeriodData)
      [⟨2, 1, c⟩] = [⟨2, 1, c⟩] := by
  induction n with
  | zero => rfl
  | succ k ih => rw [List.replicate_succ, List.foldl_cons, c5_stepQ, ih]

theorem c5_foldPQ (mem : Int) (n : Nat) (a c : Nat) :
    (List.replicate a (rowP mem) ++ List.replicate n (rowQ mem)).foldl
      (dailyRowStep mem c5qd c5now c5PeriodData) [⟨2, 1, c⟩] = [⟨2, 1, c + a⟩] := by
  induction a generalizing c with
  | zero => simpa using c5_foldQ mem n c
  | succ k ih =>
    rw [List.replicate_succ, List.cons_append, List.foldl_cons, c5_stepP, ih]
    have : c + 1 + k = c + (k + 1) := by omega
    rw [this]

/-- C5: for every member with daily cap 2 for period P (and no cap
configured for the other period), the daily limit check over a set of
same-day bookings holding three member bookings in period P — the two
existing ones plus the attempted third — reports the limit exceeded (the
third attempt is rejected), whatever the number `n` of member bookings in
the uncapped period; with at most two period-P bookings the check accepts
regardless of `n` (the uncapped period never trips the check). -/
theorem daily_cap_two_rejects_third_uncapped_unlimited (mem : Int) (n : Nat) :
    checkDailyBookingLimits mem c5qd c5now (getBookingLimitations c5ClubRow).1
      c5Periods c5PeriodData
      (List.replicate 3 (rowP mem) ++ List.replicate n (rowQ mem)) = true
    ∧ ∀ k, k ≤ 2 →
      checkDailyBookingLimits mem c5qd c5now (getBookingLimitations c5ClubRow).1
        c5Periods c5PeriodData
        (List.replicate k (rowP mem) ++ List.replicate n (rowQ mem)) = false := by
  have hlim : (getBookingLimitations c5ClubRow).1 = [2] := by decide
  have halign : alignLimits [2] c5Periods = [⟨2, 1, 0⟩] := rfl
  constructor
  · have hne : ((List.replicate 3 (rowP mem) ++ List.replicate n (rowQ mem)).isEmpty)
        = false := by
      simp [List.isEmpty_eq_false_iff_exists_mem]
    simp only [checkDailyBookingLimits, hne, Bool.false_eq_true, if_false, hlim,
      dailyCounts, halign, c5_foldPQ, limitExceeded, List.any_cons, List.any_nil,
      Bool.or_false]
    decide
  · intro k hk
    simp only [checkDailyBookingLimits, hlim, dailyCounts, halign, c5_foldPQ,
      limitExceeded, List.any_cons, List.any_nil, Bool.or_false]
    have hfalse : decide ((⟨2, 1, 0 + k⟩ : AlignedLimit).limit
        < ((⟨2, 1, 0 + k⟩ : AlignedLimit).count : Int)) = false := by
      apply decide_eq_false
      simp only [Nat.zero_add]
      intro hcon
      have : (k : Int) ≤ 2 := by exact_mod_cast hk
      omega
    rw [hfalse]
    simp

/-- Witness for C5 at member 42 with one booking in the uncapped period:
three period-P bookings are rejected, two are accepted. -/
theorem daily_cap_two_rejects_third_uncapped_unlimited_witness :
    checkDailyBookingLimits 42 c5qd c5now (getBookingLimitations c5ClubRow).1
      c5Periods c5PeriodData
      (List.replicate 3 (rowP 42) ++ List.replicate 1 (rowQ 42)) = true
    ∧ checkDailyBookingLimits 42 c5qd c5now (getBookingLimitations c5ClubRow).1
      c5Periods c5PeriodData
      (List.replicate 2 (rowP 42) ++ List.replicate 1 (rowQ 42)) = false := by
  have h := daily_cap_two_rejects_third_uncapped_unlimited 42 1
  exact ⟨h.1, h.2 2 (by omega)⟩

end WanderersSquash
